import Mathlib

/-!
Shallow embedding of the video-app frontend's signaling / peer-connection
coordinator, translated from:
  * src/src/services/WebRTCService.ts   (class WebRTCService)
  * src/unnamed/part_002                (MeetingRoom component and class WebSocketService)
JS Maps are modelled as association lists with insertion-order semantics,
RTCPeerConnection / MediaStreamTrack object identity as Nat ids, and the
side effects observable to the claims (signals sent over the socket, close
calls, console error logs) as explicit logs inside the state.
-/

namespace VideoApp

/-! ### JS Map primitives (insertion order preserving, as in the source) -/

def mapSet {α : Type} (k : String) (v : α) : List (String × α) → List (String × α)
  | [] => [(k, v)]
  | (k', v') :: rest => if k' = k then (k, v) :: rest else (k', v') :: mapSet k v rest

def mapGet {α : Type} (k : String) : List (String × α) → Option α
  | [] => none
  | (k', v') :: rest => if k' = k then some v' else mapGet k rest

def mapDelete {α : Type} (k : String) : List (String × α) → List (String × α)
  | [] => []
  | (k', v') :: rest => if k' = k then rest else (k', v') :: mapDelete k rest

def countKey {α : Type} (k : String) : List (String × α) → Nat
  | [] => 0
  | (k', _) :: rest => (if k' = k then 1 else 0) + countKey k rest

/-! ### Media tracks (MediaStreamTrack objects, identified by allocation order) -/

inductive TrackKind
  | video
  | audio
deriving DecidableEq, Repr

structure MediaTrack where
  id : Nat
  kind : TrackKind
  enabled : Bool
  stopped : Bool
deriving DecidableEq, Repr

/-- Lookup of a track object by its identity (first match, ids are allocated uniquely). -/
def getTrack : List MediaTrack → Nat → Option MediaTrack
  | [], _ => none
  | t :: rest, i => if t.id = i then some t else getTrack rest i

/-- The test the source runs on each sender: s.track and s.track.kind is video. -/
def isVideo (tracks : List MediaTrack) (i : Nat) : Bool :=
  match getTrack tracks i with
  | some t => t.kind = TrackKind.video
  | none => false

/-- getSenders().find(video) followed by sender.replaceTrack(newId):
replaces the first sender currently holding a video-kind track. -/
def replaceFirstVideo (tracks : List MediaTrack) (newId : Nat) : List Nat → List Nat
  | [] => []
  | tid :: rest =>
    if isVideo tracks tid then newId :: rest else tid :: replaceFirstVideo tracks newId rest

/-- stream.getVideoTracks()[0]: first video-kind track of a stream. -/
def firstVideo (tracks : List MediaTrack) : List Nat → Option Nat
  | [] => none
  | tid :: rest => if isVideo tracks tid then some tid else firstVideo tracks rest

/-- track.stop() on the track object with the given identity. -/
def stopTrack (i : Nat) : List MediaTrack → List MediaTrack
  | [] => []
  | t :: rest => if t.id = i then { t with stopped := true } :: rest else t :: stopTrack i rest

/-- MediaStream.removeTrack: drops the track with the given identity from a stream. -/
def removeId (i : Nat) : List Nat → List Nat
  | [] => []
  | tid :: rest => if tid = i then removeId i rest else tid :: removeId i rest

/-! ### WebRTCService state

`RTCPeerConn` is one RTCPeerConnection object: `objId` is object identity,
`senders` the tracks attached via addTrack/replaceTrack in order,
`appliedCandidates` the candidates successfully passed to addIceCandidate,
`connState` the browser-reported connectionState.  There is no
pending-candidate buffer because the source class has none. -/

inductive ConnState
  | fresh
  | connecting
  | connected
  | disconnected
  | failed
  | closed
deriving DecidableEq, Repr

structure RTCPeerConn where
  objId : Nat
  senders : List Nat
  localDescSet : Bool
  remoteDescSet : Bool
  appliedCandidates : List String
  connState : ConnState
deriving DecidableEq, Repr

inductive SignalType
  | offer
  | answer
  | iceCandidate
deriving DecidableEq, Repr

/-- One sendWebRTCSignal payload: its type tag and its to_user field. -/
structure OutSignal where
  sigType : SignalType
  to_user : String
deriving DecidableEq, Repr

structure WebRTCState where
  localStream : Option (List Nat)
  tracks : List MediaTrack
  nextTrackId : Nat
  nextConnId : Nat
  peerConnections : List (String × RTCPeerConn)
  sent : List OutSignal
  closedConnIds : List Nat
deriving DecidableEq, Repr

def rtcInitial : WebRTCState :=
  { localStream := none, tracks := [], nextTrackId := 0, nextConnId := 0,
    peerConnections := [], sent := [], closedConnIds := [] }

/-- Allocation of a fresh MediaStreamTrack by the browser. -/
def allocTrack (kind : TrackKind) (s : WebRTCState) : MediaTrack × WebRTCState :=
  let t : MediaTrack := { id := s.nextTrackId, kind := kind, enabled := true, stopped := false }
  (t, { s with nextTrackId := s.nextTrackId + 1, tracks := s.tracks ++ [t] })

/-- getLocalStream: getUserMedia with video/audio per the toggles, the result
stored in this.localStream (WebRTCService.ts lines 64-90). -/
def getLocalStream (videoEnabled audioEnabled : Bool) (s : WebRTCState) : WebRTCState :=
  let (vids, s1) :=
    if videoEnabled then
      let (t, s') := allocTrack TrackKind.video s
      ([t.id], s')
    else ([], s)
  let (aids, s2) :=
    if audioEnabled then
      let (t, s') := allocTrack TrackKind.audio s1
      ([t.id], s')
    else ([], s1)
  { s2 with localStream := some (vids ++ aids) }

/-- createPeerConnection (WebRTCService.ts lines 117-168): always constructs a
new RTCPeerConnection, adds every local-stream track, and unconditionally
overwrites the registry entry via this.peerConnections.set. -/
def createPeerConnection (pid : String) (s : WebRTCState) : RTCPeerConn × WebRTCState :=
  let conn : RTCPeerConn :=
    { objId := s.nextConnId
      senders := match s.localStream with
        | some tids => tids
        | none => []
      localDescSet := false, remoteDescSet := false
      appliedCandidates := [], connState := ConnState.fresh }
  (conn,
    { s with nextConnId := s.nextConnId + 1
             peerConnections := mapSet pid conn s.peerConnections })

/-- createOffer (lines 173-197): looks up the connection; when missing it only
logs and returns; otherwise sets the local description and sends a
webrtc_offer signal to the participant. -/
def createOffer (pid : String) (s : WebRTCState) : WebRTCState :=
  match mapGet pid s.peerConnections with
  | none => s
  | some conn =>
    { s with
        peerConnections := mapSet pid { conn with localDescSet := true } s.peerConnections
        sent := s.sent ++ [⟨SignalType.offer, pid⟩] }

/-- handleOffer (lines 227-246): get-or-create the connection, set the remote
description, create and set the local answer, send a webrtc_answer signal. -/
def handleOffer (pid : String) (s : WebRTCState) : WebRTCState :=
  let (conn, s1) :=
    match mapGet pid s.peerConnections with
    | some c => (c, s)
    | none => createPeerConnection pid s
  { s1 with
      peerConnections :=
        mapSet pid { conn with remoteDescSet := true, localDescSet := true } s1.peerConnections
      sent := s1.sent ++ [⟨SignalType.answer, pid⟩] }

/-- handleAnswer (lines 251-258): only when a connection exists, set the
remote description; otherwise nothing happens at all. -/
def handleAnswer (pid : String) (sdp : String) (s : WebRTCState) : WebRTCState :=
  let _ := sdp
  match mapGet pid s.peerConnections with
  | none => s
  | some conn =>
    { s with peerConnections := mapSet pid { conn with remoteDescSet := true } s.peerConnections }

/-- RTCPeerConnection.addIceCandidate: succeeds only when a remote description
is set; otherwise the browser rejects with InvalidStateError (none). -/
def addIceCandidate (conn : RTCPeerConn) (cand : String) : Option RTCPeerConn :=
  if conn.remoteDescSet then
    some { conn with appliedCandidates := conn.appliedCandidates ++ [cand] }
  else none

/-- handleIceCandidate (lines 263-270): if a connection exists, call
addIceCandidate immediately; the rejection for a missing remote description
is swallowed by handleWebRTCSignal's catch, so the candidate is lost.  With
no connection the candidate is ignored.  The class keeps no buffer. -/
def handleIceCandidate (pid : String) (cand : String) (s : WebRTCState) : WebRTCState :=
  match mapGet pid s.peerConnections with
  | none => s
  | some conn =>
    match addIceCandidate conn cand with
    | some conn' => { s with peerConnections := mapSet pid conn' s.peerConnections }
    | none => s

/-- removePeerConnection (lines 383-390): when present, close the connection
and delete the registry entry. -/
def removePeerConnection (pid : String) (s : WebRTCState) : WebRTCState :=
  match mapGet pid s.peerConnections with
  | none => s
  | some conn =>
    { s with peerConnections := mapDelete pid s.peerConnections
             closedConnIds := s.closedConnIds ++ [conn.objId] }

/-- onconnectionstatechange (lines 150-162): the underlying connection's state
has changed to newState; the handler removes the entry exactly when the new
state is closed or failed. -/
def handleConnectionStateChange (pid : String) (newState : ConnState) (s : WebRTCState) :
    WebRTCState :=
  let s1 :=
    match mapGet pid s.peerConnections with
    | some conn =>
      { s with peerConnections :=
          mapSet pid { conn with connState := newState } s.peerConnections }
    | none => s
  if newState = ConnState.closed ∨ newState = ConnState.failed then
    removePeerConnection pid s1
  else s1

/-- stopScreenShare (lines 343-378): acquire a fresh camera track, replace the
video sender of every connection with it, then remove and stop the local
stream's previous video track and add the new one. -/
def stopScreenShare (s : WebRTCState) : WebRTCState :=
  let (cam, s1) := allocTrack TrackKind.video s
  let s2 :=
    { s1 with peerConnections :=
        s1.peerConnections.map fun (pc : String × RTCPeerConn) =>
          (pc.1, { pc.2 with senders := replaceFirstVideo s1.tracks cam.id pc.2.senders }) }
  match s2.localStream with
  | none => s2
  | some tids =>
    match firstVideo s2.tracks tids with
    | some oldTid =>
      { s2 with localStream := some (removeId oldTid tids ++ [cam.id])
                tracks := stopTrack oldTid s2.tracks }
    | none => { s2 with localStream := some (tids ++ [cam.id]) }

/-- toggleScreenShare (lines 303-338): when enabling, acquire a display video
track and substitute it for the video sender of every connection (the display
stream's own audio is never attached); when disabling, stopScreenShare. -/
def toggleScreenShare (enabled : Bool) (s : WebRTCState) : WebRTCState :=
  if enabled then
    let (screen, s1) := allocTrack TrackKind.video s
    { s1 with peerConnections :=
        s1.peerConnections.map fun (pc : String × RTCPeerConn) =>
          (pc.1, { pc.2 with senders := replaceFirstVideo s1.tracks screen.id pc.2.senders }) }
  else stopScreenShare s

/-- handleParticipantJoined (src/unnamed/part_002 lines 179-185): the entire
body is a call to createPeerConnection; no offer is created or sent. -/
def handleParticipantJoined (pid : String) (s : WebRTCState) : WebRTCState :=
  (createPeerConnection pid s).2

/-! ### WebSocketService state (src/unnamed/part_002 lines 1256-1575)

The transport is an optional WebSocket carrying its readyState (the OPEN
constant is rendered as opened).  Outgoing frames, close calls and the
console error log of send are recorded so that the claims can inspect them. -/

inductive ReadyState
  | connecting
  | opened
  | closing
  | closedSock
deriving DecidableEq, Repr

structure WSState where
  ws : Option ReadyState
  meetingId : Option String
  token : Option String
  reconnectAttempts : Nat
  reconnectDelay : Nat
  heartbeatActive : Bool
  sentFrames : List String
  notConnectedLogs : Nat
  closeFrames : List Nat
deriving DecidableEq, Repr

/-- Field defaults of the class: no socket, no ids, 0 attempts, 1000 ms delay,
no heartbeat timer. -/
def wsInitial : WSState :=
  { ws := none, meetingId := none, token := none,
    reconnectAttempts := 0, reconnectDelay := 1000, heartbeatActive := false,
    sentFrames := [], notConnectedLogs := 0, closeFrames := [] }

def maxReconnectAttempts : Nat := 5

/-- connect (lines 1293-1300), up to the creation of the WebSocket: stores the
meetingId and token and builds a socket in the CONNECTING state. -/
def connectStart (meetingId token : String) (s : WSState) : WSState :=
  { s with meetingId := some meetingId, token := some token,
           ws := some ReadyState.connecting }

/-- ws.onopen (lines 1302-1313): zero the attempt counter, reset the delay to
1000 ms and start the heartbeat; the socket is now OPEN. -/
def handleOpen (s : WSState) : WSState :=
  { s with ws := some ReadyState.opened, reconnectAttempts := 0,
           reconnectDelay := 1000, heartbeatActive := true }

/-- send (lines 1444-1450): when the socket exists and is OPEN the frame goes
out once, otherwise console.error is the only effect — nothing is thrown and
nothing is queued. -/
def send (msg : String) (s : WSState) : WSState :=
  if s.ws = some ReadyState.opened then { s with sentFrames := s.sentFrames ++ [msg] }
  else { s with notConnectedLogs := s.notConnectedLogs + 1 }

/-- attemptReconnect (lines 1522-1542), its synchronous bookkeeping: when the
guard (attempts < max, meetingId and token still present) passes, one retry
happens — the attempt counter rises, the wait is the current reconnectDelay,
and the delay is doubled and capped at 30000 for the next time.  Returns the
wait performed together with the state after the bookkeeping, or none when no
retry takes place. -/
def reconnectStep (s : WSState) : Option (Nat × WSState) :=
  if s.reconnectAttempts < maxReconnectAttempts ∧ s.meetingId.isSome ∧ s.token.isSome then
    some (s.reconnectDelay,
      { s with reconnectAttempts := s.reconnectAttempts + 1,
               reconnectDelay := min (s.reconnectDelay * 2) 30000 })
  else none

/-- The wait before the (n+1)-st retry of a run of consecutive failures
starting from state s (0-indexed; none when that retry never happens). -/
def retryWait : Nat → WSState → Option Nat
  | 0, s => (reconnectStep s).map Prod.fst
  | n + 1, s =>
    match reconnectStep s with
    | some (_, s') => retryWait n s'
    | none => none

/-- disconnect (lines 1547-1560): stop the heartbeat, close the socket with
code 1000 when one exists, null the socket, meetingId and token, and zero the
attempt counter.  The reconnectDelay field is not touched. -/
def disconnect (s : WSState) : WSState :=
  let s1 := { s with heartbeatActive := false }
  let s2 :=
    match s1.ws with
    | some _ => { s1 with closeFrames := s1.closeFrames ++ [1000], ws := none }
    | none => s1
  { s2 with meetingId := none, token := none, reconnectAttempts := 0 }

/-! ### initializeServices (src/unnamed/part_002 lines 110-158)

The session-start sequence of the MeetingRoom component: token check, then
WebSocket connect, then WebRTC init and getUserMedia, then joinMeeting, the
whole try wrapped in one catch that only sets the generic error string and
clears the loading flag.  The environment tells which steps succeed; the
outcome records what was acquired when the function returns (the catch
releases nothing). -/

inductive MediaErrorKind
  | permissionDenied
  | deviceNotFound
  | deviceBusy
  | constraintsUnsatisfiable
  | aborted
deriving DecidableEq, Repr

structure InitEnv where
  hasToken : Bool
  wsConnectOk : Bool
  mediaResult : Option MediaErrorKind
  joinOk : Bool
deriving DecidableEq, Repr

structure InitOutcome where
  wsConnected : Bool
  mediaAcquired : Bool
  joinAttempted : Bool
  errorMsg : Option String
  loading : Bool
deriving DecidableEq, Repr

def genericJoinError : String := "Failed to join meeting. Please try again."

def initMeetingServices (env : InitEnv) : InitOutcome :=
  if env.hasToken = false then
    -- throw new Error: no authentication token — caught below
    { wsConnected := false, mediaAcquired := false, joinAttempted := false,
      errorMsg := some genericJoinError, loading := false }
  else if env.wsConnectOk = false then
    -- await wsService.connect rejected — caught below
    { wsConnected := false, mediaAcquired := false, joinAttempted := false,
      errorMsg := some genericJoinError, loading := false }
  else
    match env.mediaResult with
    | some _ =>
      -- getLocalStream threw after the WebSocket was already connected;
      -- the catch neither disconnects it nor inspects the error kind
      { wsConnected := true, mediaAcquired := false, joinAttempted := false,
        errorMsg := some genericJoinError, loading := false }
    | none =>
      if env.joinOk = false then
        { wsConnected := true, mediaAcquired := true, joinAttempted := true,
          errorMsg := some genericJoinError, loading := false }
      else
        { wsConnected := true, mediaAcquired := true, joinAttempted := true,
          errorMsg := none, loading := false }

/-! ### Concrete demonstration states used by witnesses and counterexamples -/

/-- A connection registry holding one just-created entry for participant p. -/
def c1Setup : WebRTCState := (createPeerConnection "p" rtcInitial).2

/-- An ICE candidate arrives for p before any remote description is set. -/
def c1AfterCand : WebRTCState := handleIceCandidate "p" "cand0" c1Setup

/-- The offer (and with it the remote description) arrives afterwards. -/
def c1Final : WebRTCState := handleOffer "p" c1AfterCand

def connOf (pid : String) (s : WebRTCState) : Option RTCPeerConn :=
  mapGet pid s.peerConnections

/-- A state with local camera and microphone plus one connection for p. -/
def c4Start : WebRTCState := (createPeerConnection "p" (getLocalStream true true rtcInitial)).2

def c4Shared : WebRTCState := toggleScreenShare true c4Start

def c4Restored : WebRTCState := toggleScreenShare false c4Shared

/-- The track currently held by the video sender of the connection of pid. -/
def outboundVideo (pid : String) (s : WebRTCState) : Option Nat :=
  match mapGet pid s.peerConnections with
  | some conn => firstVideo s.tracks conn.senders
  | none => none

/-- A session-active state: local media acquired, nothing sent yet. -/
def demoActive : WebRTCState := getLocalStream true true rtcInitial

/-- A socket state whose first connection just succeeded. -/
def wsConnected0 : WSState := handleOpen (connectStart "m0" "t0" wsInitial)

/-- The same session after one non-normal closure and its retry bookkeeping. -/
def wsFailedOnce : WSState := ((reconnectStep wsConnected0).map Prod.snd).getD wsInitial

/-! ### Lemmas about the Map primitives -/

theorem mapGet_mapSet_self {α : Type} (k : String) (v : α) (l : List (String × α)) :
    mapGet k (mapSet k v l) = some v := by
  induction l with
  | nil => simp [mapSet, mapGet]
  | cons hd tl ih =>
    obtain ⟨k', v'⟩ := hd
    by_cases h : k' = k
    · simp [mapSet, mapGet, h]
    · simp [mapSet, mapGet, h, ih]

theorem mapGet_eq_none_iff_countKey {α : Type} (k : String) (l : List (String × α)) :
    mapGet k l = none ↔ countKey k l = 0 := by
  induction l with
  | nil => simp [mapGet, countKey]
  | cons hd tl ih =>
    obtain ⟨k', v'⟩ := hd
    by_cases h : k' = k
    · simp [mapGet, countKey, h]
    · simp [mapGet, countKey, h, ih]

theorem countKey_mapSet {α : Type} (k : String) (v : α) (l : List (String × α)) :
    countKey k (mapSet k v l) =
      match mapGet k l with
      | none => countKey k l + 1
      | some _ => countKey k l := by
  induction l with
  | nil => simp [mapSet, mapGet, countKey]
  | cons hd tl ih =>
    obtain ⟨k', v'⟩ := hd
    by_cases h : k' = k
    · simp [mapSet, mapGet, countKey, h]
    · simp only [mapSet, mapGet, countKey, if_neg h, ih]
      cases mapGet k tl <;> simp

theorem mapDelete_mapSet {α : Type} (k : String) (v : α) (l : List (String × α)) :
    mapDelete k (mapSet k v l) = mapDelete k l := by
  induction l with
  | nil => simp [mapSet, mapDelete]
  | cons hd tl ih =>
    obtain ⟨k', v'⟩ := hd
    by_cases h : k' = k
    · simp [mapSet, mapDelete, h]
    · simp [mapSet, mapDelete, h, ih]

theorem mem_mapSet {α : Type} {x : String × α} {k : String} {v : α} {l : List (String × α)}
    (h : x ∈ mapSet k v l) : x = (k, v) ∨ x ∈ l := by
  induction l with
  | nil => simpa [mapSet] using h
  | cons hd tl ih =>
    obtain ⟨k', v'⟩ := hd
    by_cases hk : k' = k
    · simp only [mapSet, if_pos hk, List.mem_cons] at h
      rcases h with h | h
      · exact Or.inl h
      · exact Or.inr (List.mem_cons_of_mem _ h)
    · simp only [mapSet, if_neg hk, List.mem_cons] at h
      rcases h with h | h
      · exact Or.inr (by simp [h])
      · rcases ih h with h' | h'
        · exact Or.inl h'
        · exact Or.inr (List.mem_cons_of_mem _ h')

theorem mem_mapDelete {α : Type} {x : String × α} {k : String} {l : List (String × α)}
    (h : x ∈ mapDelete k l) : x ∈ l := by
  induction l with
  | nil => exact absurd h (by simp [mapDelete])
  | cons hd tl ih =>
    obtain ⟨k', v'⟩ := hd
    by_cases hk : k' = k
    · simp only [mapDelete, if_pos hk] at h
      exact List.mem_cons_of_mem _ h
    · simp only [mapDelete, if_neg hk, List.mem_cons] at h
      rcases h with h | h
      · simp [h]
      · exact List.mem_cons_of_mem _ (ih h)

theorem mapGet_mapDelete_of_count_le_one {α : Type} {k : String} {l : List (String × α)}
    (h : countKey k l ≤ 1) : mapGet k (mapDelete k l) = none := by
  induction l with
  | nil => simp [mapDelete, mapGet]
  | cons hd tl ih =>
    obtain ⟨k', v'⟩ := hd
    by_cases hk : k' = k
    · simp only [countKey, if_pos hk] at h
      have h0 : countKey k tl = 0 := by omega
      simp only [mapDelete, if_pos hk]
      exact (mapGet_eq_none_iff_countKey k tl).mpr h0
    · simp only [countKey, if_neg hk] at h
      simp only [mapDelete, mapGet, if_neg hk]
      exact ih (by omega)

theorem mapGet_map_vals {α β : Type} (g : α → β) (k : String) (l : List (String × α)) :
    mapGet k (l.map fun p => (p.1, g p.2)) = (mapGet k l).map g := by
  induction l with
  | nil => simp [mapGet]
  | cons hd tl ih =>
    obtain ⟨k', v'⟩ := hd
    by_cases h : k' = k
    · simp [mapGet, h]
    · simp [mapGet, h, ih]

/-- Looking a participant up after the map the track-replacement loops run
over every registry entry. -/
theorem mapGet_replaceMap (tracksArg : List MediaTrack) (nid : Nat) (k : String)
    (l : List (String × RTCPeerConn)) :
    mapGet k (l.map fun (pc : String × RTCPeerConn) =>
      (pc.1, { pc.2 with senders := replaceFirstVideo tracksArg nid pc.2.senders })) =
    (mapGet k l).map
      (fun c => { c with senders := replaceFirstVideo tracksArg nid c.senders }) := by
  induction l with
  | nil => simp [mapGet]
  | cons hd tl ih =>
    obtain ⟨k', v'⟩ := hd
    by_cases h : k' = k
    · simp [mapGet, h]
    · simp [mapGet, h, ih]

/-! ### Lemmas about the track primitives -/

theorem getTrack_append_of_ne (l : List MediaTrack) (t : MediaTrack) (i : Nat)
    (h : ¬ t.id = i) : getTrack (l ++ [t]) i = getTrack l i := by
  induction l with
  | nil => simp [getTrack, h]
  | cons hd tl ih =>
    by_cases hk : hd.id = i
    · simp [getTrack, hk]
    · simp [getTrack, hk, ih]

theorem isVideo_append_of_ne (l : List MediaTrack) (t : MediaTrack) (i : Nat)
    (h : ¬ t.id = i) : isVideo (l ++ [t]) i = isVideo l i := by
  simp [isVideo, getTrack_append_of_ne l t i h]

theorem getTrack_append_left_none (l r : List MediaTrack) (i : Nat)
    (h : ∀ t ∈ l, ¬ t.id = i) : getTrack (l ++ r) i = getTrack r i := by
  induction l with
  | nil => simp
  | cons hd tl ih =>
    have hhd : ¬ hd.id = i := h hd (by simp)
    simp only [List.cons_append, getTrack, if_neg hhd]
    exact ih fun t ht => h t (by simp [ht])

theorem replaceFirstVideo_split (tracks : List MediaTrack) (n t0 : Nat)
    (pre post : List Nat) (hpre : ∀ x ∈ pre, isVideo tracks x = false)
    (ht0 : isVideo tracks t0 = true) :
    replaceFirstVideo tracks n (pre ++ t0 :: post) = pre ++ n :: post := by
  induction pre with
  | nil => simp [replaceFirstVideo, ht0]
  | cons hd tl ih =>
    have hhd : isVideo tracks hd = false := hpre hd (by simp)
    simp only [List.cons_append, replaceFirstVideo, hhd, Bool.false_eq_true, if_false,
      List.cons.injEq, true_and]
    exact ih fun x hx => hpre x (by simp [hx])

theorem firstVideo_congr (tr1 tr2 : List MediaTrack) (l : List Nat)
    (h : ∀ x ∈ l, isVideo tr2 x = isVideo tr1 x) : firstVideo tr2 l = firstVideo tr1 l := by
  induction l with
  | nil => rfl
  | cons hd tl ih =>
    have hhd := h hd (by simp)
    by_cases hv : isVideo tr1 hd = true
    · simp [firstVideo, hv, hhd]
    · simp only [Bool.not_eq_true] at hv
      simp only [firstVideo, hhd, hv, Bool.false_eq_true, if_false]
      exact ih fun x hx => h x (by simp [hx])

theorem getTrack_stopTrack_self (l : List MediaTrack) (i : Nat) (tr : MediaTrack)
    (h : getTrack l i = some tr) :
    getTrack (stopTrack i l) i = some { tr with stopped := true } := by
  induction l with
  | nil => simp [getTrack] at h
  | cons hd tl ih =>
    by_cases hk : hd.id = i
    · simp only [getTrack, if_pos hk, Option.some.injEq] at h
      subst h
      simp [stopTrack, getTrack, hk]
    · simp only [getTrack, if_neg hk] at h
      simp only [stopTrack, if_neg hk, getTrack, hk, if_neg hk]
      exact ih h

/-! ### Claim theorems -/

/-- C1 counterexample: an ICE candidate that arrives for participant p after
the connection exists but before the remote description is set leaves the
whole service state unchanged — it is buffered nowhere — and after the offer
later sets the remote description, the connection has applied no candidate at
all, refuting appending to a pendingRemoteCandidates buffer and exactly-once
application. -/
theorem iceBeforeDesc_candidate_lost :
    c1AfterCand = c1Setup ∧
    (connOf "p" c1Final).map RTCPeerConn.remoteDescSet = some true ∧
    (connOf "p" c1Final).map RTCPeerConn.appliedCandidates = some [] := by
  decide

/-- C1 (amended): handleIceCandidate keeps no pending buffer.  A candidate for
an unknown participant is ignored; a candidate arriving while the connection's
remote description is unset is dropped (addIceCandidate rejects and the catch
swallows it), leaving the state unchanged; only a candidate arriving after the
remote description is set is applied, once, in arrival order. -/
theorem handleIceCandidate_cases (s : WebRTCState) (pid cand : String) :
    (mapGet pid s.peerConnections = none → handleIceCandidate pid cand s = s) ∧
    (∀ conn, mapGet pid s.peerConnections = some conn → conn.remoteDescSet = false →
      handleIceCandidate pid cand s = s) ∧
    (∀ conn, mapGet pid s.peerConnections = some conn → conn.remoteDescSet = true →
      handleIceCandidate pid cand s =
        { s with peerConnections := mapSet pid { conn with appliedCandidates := conn.appliedCandidates ++ [cand] } s.peerConnections }) := by
  refine ⟨fun h => ?_, fun conn h hr => ?_, fun conn h hr => ?_⟩
  · simp [handleIceCandidate, h]
  · simp [handleIceCandidate, addIceCandidate, h, hr]
  · simp [handleIceCandidate, addIceCandidate, h, hr]

theorem handleIceCandidate_cases_witness :
    handleIceCandidate "q" "c" c1Setup = c1Setup ∧
    handleIceCandidate "p" "c" c1Setup = c1Setup :=
  ⟨(handleIceCandidate_cases c1Setup "q" "c").1 (by decide),
   (handleIceCandidate_cases c1Setup "p" "c").2.1
     ((createPeerConnection "p" rtcInitial).1) (by decide) (by decide)⟩

/-- C2 counterexample: a second createPeerConnection for the same participant
returns a different connection object than the first call, and the registry
afterwards holds the second one, not the first. -/
theorem createPeerConnection_not_idempotent :
    (createPeerConnection "p" c1Setup).1 ≠ (createPeerConnection "p" rtcInitial).1 ∧
    mapGet "p" (createPeerConnection "p" c1Setup).2.peerConnections
      = some (createPeerConnection "p" c1Setup).1 ∧
    ¬ mapGet "p" (createPeerConnection "p" c1Setup).2.peerConnections
      = some (createPeerConnection "p" rtcInitial).1 ∧
    countKey "p" (createPeerConnection "p" c1Setup).2.peerConnections = 1 := by
  decide

/-- C2 (amended): calling createPeerConnection twice for a participant that
was not yet registered yields a fresh second connection that replaces the
first in the registry: the second returned entry differs from the first, the
registry maps the participant to the second entry only, exactly one entry for
the participant remains, and the displaced first connection is never closed. -/
theorem createPeerConnection_replaces (s : WebRTCState) (pid : String)
    (h : mapGet pid s.peerConnections = none) :
    (createPeerConnection pid (createPeerConnection pid s).2).1
      ≠ (createPeerConnection pid s).1 ∧
    mapGet pid (createPeerConnection pid (createPeerConnection pid s).2).2.peerConnections
      = some (createPeerConnection pid (createPeerConnection pid s).2).1 ∧
    countKey pid (createPeerConnection pid (createPeerConnection pid s).2).2.peerConnections
      = 1 ∧
    (createPeerConnection pid (createPeerConnection pid s).2).2.closedConnIds
      = s.closedConnIds := by
  have h0 : countKey pid s.peerConnections = 0 :=
    (mapGet_eq_none_iff_countKey pid s.peerConnections).mp h
  refine ⟨?_, ?_, ?_, ?_⟩
  · intro heq
    have := congrArg RTCPeerConn.objId heq
    simp [createPeerConnection] at this
  · simp [createPeerConnection, mapGet_mapSet_self]
  · simp [createPeerConnection, countKey_mapSet, mapGet_mapSet_self, h, h0]
  · simp [createPeerConnection]

theorem createPeerConnection_replaces_witness :
    (createPeerConnection "p" (createPeerConnection "p" rtcInitial).2).1
      ≠ (createPeerConnection "p" rtcInitial).1 ∧
    countKey "p"
      (createPeerConnection "p" (createPeerConnection "p" rtcInitial).2).2.peerConnections
      = 1 :=
  ⟨(createPeerConnection_replaces rtcInitial "p" (by decide)).1,
   (createPeerConnection_replaces rtcInitial "p" (by decide)).2.2.1⟩

/-- C3: evaluating the code at the failing input.  A participantJoined event
for participant b2 while the session is active creates a connection entry but
emits no signal whatsoever — in particular no offer is addressed to b2,
although the claim (and the spec scenario) requires one. -/
theorem participantJoined_emits_no_offer :
    (handleParticipantJoined "b2" demoActive).sent = [] ∧
    ¬ connOf "b2" (handleParticipantJoined "b2" demoActive) = none := by
  decide

/-- C6 counterexample: when getUserMedia fails with PermissionDenied after the
WebSocket already connected, the socket stays connected (no rollback), the
surfaced error is the generic join-failure string, and the outcome is
identical to the one for a completely different media error kind. -/
theorem mediaFailure_generic_and_no_rollback :
    (initMeetingServices
      { hasToken := true, wsConnectOk := true,
        mediaResult := some MediaErrorKind.permissionDenied, joinOk := true }).wsConnected
      = true ∧
    (initMeetingServices
      { hasToken := true, wsConnectOk := true,
        mediaResult := some MediaErrorKind.permissionDenied, joinOk := true }).errorMsg
      = some genericJoinError ∧
    initMeetingServices
      { hasToken := true, wsConnectOk := true,
        mediaResult := some MediaErrorKind.permissionDenied, joinOk := true }
      = initMeetingServices
        { hasToken := true, wsConnectOk := true,
          mediaResult := some MediaErrorKind.aborted, joinOk := true } := by
  decide

/-- C6 (amended): a media-acquisition failure aborts the remaining steps (no
join is attempted, no media is held), but the already-connected WebSocket is
not released by the error path, and the surfaced error is the generic
join-failure message, independent of the media error kind. -/
theorem initServices_mediaFailure (env : InitEnv) (k : MediaErrorKind)
    (htok : env.hasToken = true) (hws : env.wsConnectOk = true)
    (hmedia : env.mediaResult = some k) :
    initMeetingServices env =
      { wsConnected := true, mediaAcquired := false, joinAttempted := false,
        errorMsg := some genericJoinError, loading := false } ∧
    (∀ k', initMeetingServices { env with mediaResult := some k' } =
      initMeetingServices env) := by
  constructor
  · simp [initMeetingServices, htok, hws, hmedia]
  · intro k'
    simp [initMeetingServices, htok, hws, hmedia]

theorem initServices_mediaFailure_witness :
    initMeetingServices
      { hasToken := true, wsConnectOk := true,
        mediaResult := some MediaErrorKind.deviceBusy, joinOk := true } =
      { wsConnected := true, mediaAcquired := false, joinAttempted := false,
        errorMsg := some genericJoinError, loading := false } :=
  (initServices_mediaFailure
    { hasToken := true, wsConnectOk := true,
      mediaResult := some MediaErrorKind.deviceBusy, joinOk := true }
    MediaErrorKind.deviceBusy rfl rfl rfl).1

/-- C7 counterexample: after one non-normal closure the backoff delay is 2000;
disconnect leaves it at 2000 instead of resetting it to the base 1000, so
disconnect does not reset both reconnect counters. -/
theorem disconnect_keeps_backoff_delay :
    wsFailedOnce.reconnectDelay = 2000 ∧
    (disconnect wsFailedOnce).reconnectDelay = 2000 ∧
    ¬ (disconnect wsFailedOnce).reconnectDelay = 1000 := by
  decide

/-- C7 (amended): disconnect stops the heartbeat, closes the socket with the
normal code 1000 exactly when one exists, clears the socket, meetingId and
token (so a pending reconnect attempt finds its guard false and does
nothing), and zeroes the attempt counter — but it leaves the backoff delay
unchanged; the delay is only reset by a successful connection.  It is
idempotent. -/
theorem disconnect_spec (s : WSState) :
    (disconnect s).heartbeatActive = false ∧
    (disconnect s).ws = none ∧
    (disconnect s).meetingId = none ∧
    (disconnect s).token = none ∧
    (disconnect s).reconnectAttempts = 0 ∧
    (disconnect s).reconnectDelay = s.reconnectDelay ∧
    (disconnect s).closeFrames =
      (s.closeFrames ++ match s.ws with
        | some _ => [1000]
        | none => []) ∧
    reconnectStep (disconnect s) = none ∧
    disconnect (disconnect s) = disconnect s := by
  cases hws : s.ws <;> simp [disconnect, hws, reconnectStep]

/-- C9: send publishes the frame exactly once when the socket is OPEN, and
otherwise only increments the not-connected error log: it never throws (it is
a total function on the state) and queues nothing (the sent frames are
unchanged and no other field exists to hold a queue). -/
theorem send_spec (msg : String) (s : WSState) :
    (¬ s.ws = some ReadyState.opened →
      send msg s = { s with notConnectedLogs := s.notConnectedLogs + 1 }) ∧
    (s.ws = some ReadyState.opened →
      send msg s = { s with sentFrames := s.sentFrames ++ [msg] }) := by
  constructor <;> intro h <;> simp [send, h]

theorem send_spec_witness :
    send "ping" wsInitial = { wsInitial with notConnectedLogs := 1 } ∧
    send "ping" wsConnected0 = { wsConnected0 with sentFrames := ["ping"] } :=
  ⟨(send_spec "ping" wsInitial).1 (by decide),
   (send_spec "ping" wsConnected0).2 (by decide)⟩

/-- C10: an answer or an ICE candidate from a participant with no registry
entry leaves the service state completely unchanged: nothing is raised, no
connection is created, the registry is untouched. -/
theorem unknown_sender_ignored (s : WebRTCState) (pid sdp cand : String)
    (h : mapGet pid s.peerConnections = none) :
    handleAnswer pid sdp s = s ∧ handleIceCandidate pid cand s = s := by
  constructor <;> simp [handleAnswer, handleIceCandidate, h]

theorem unknown_sender_ignored_witness :
    handleAnswer "p" "sdp" rtcInitial = rtcInitial ∧
    handleIceCandidate "p" "cand" rtcInitial = rtcInitial :=
  unknown_sender_ignored rtcInitial "p" "sdp" "cand" (by decide)

/-! ### Reconnection backoff lemmas (towards C5) -/

theorem reconnectStep_some (s : WSState) (ha : s.reconnectAttempts < maxReconnectAttempts)
    (hm : s.meetingId.isSome = true) (ht : s.token.isSome = true) :
    reconnectStep s = some (s.reconnectDelay,
      { s with reconnectAttempts := s.reconnectAttempts + 1,
               reconnectDelay := min (s.reconnectDelay * 2) 30000 }) := by
  simp [reconnectStep, ha, hm, ht]

theorem reconnectStep_exhausted (s : WSState)
    (ha : ¬ s.reconnectAttempts < maxReconnectAttempts) : reconnectStep s = none := by
  simp [reconnectStep, ha]

theorem retryWait_succ (n : Nat) (s s' : WSState) (w : Nat)
    (h : reconnectStep s = some (w, s')) : retryWait (n + 1) s = retryWait n s' := by
  simp [retryWait, h]

theorem reconnectStep_attempts {s s' : WSState} {w : Nat}
    (h : reconnectStep s = some (w, s')) :
    s'.reconnectAttempts = s.reconnectAttempts + 1 := by
  by_cases hc : s.reconnectAttempts < maxReconnectAttempts ∧
      s.meetingId.isSome = true ∧ s.token.isSome = true
  · rw [reconnectStep, if_pos hc] at h
    simp only [Option.some.injEq, Prod.mk.injEq] at h
    rw [← h.2]
  · rw [reconnectStep, if_neg hc] at h
    cases h

/-- Retries cease: as soon as the attempt counter would have to exceed the
maximum to reach retry index n, that retry never happens. -/
theorem retryWait_stops (n : Nat) (s : WSState)
    (ha : maxReconnectAttempts ≤ s.reconnectAttempts + n) : retryWait n s = none := by
  induction n generalizing s with
  | zero =>
    simp [retryWait, reconnectStep_exhausted s (by omega)]
  | succ n ih =>
    cases hstep : reconnectStep s with
    | none => simp [retryWait, hstep]
    | some p =>
      obtain ⟨w, s'⟩ := p
      rw [retryWait_succ n s s' w hstep]
      exact ih s' (by have := reconnectStep_attempts hstep; omega)

/-- As long as the attempt budget and the 30000 ms cap are not hit, the wait
before the (n+1)-st retry is the current delay doubled n times. -/
theorem retryWait_closed_form (n : Nat) (s : WSState)
    (hm : s.meetingId.isSome = true) (ht : s.token.isSome = true)
    (ha : s.reconnectAttempts + n < maxReconnectAttempts)
    (hc : s.reconnectDelay * 2 ^ n ≤ 30000) :
    retryWait n s = some (s.reconnectDelay * 2 ^ n) := by
  induction n generalizing s with
  | zero =>
    rw [retryWait, reconnectStep_some s (by omega) hm ht]
    simp
  | succ n ih =>
    have hstep := reconnectStep_some s (by omega) hm ht
    rw [retryWait_succ n s _ _ hstep]
    have h2 : (2 : Nat) ≤ 2 ^ (n + 1) := by
      calc (2 : Nat) = 2 ^ 1 := (pow_one 2).symm
      _ ≤ 2 ^ (n + 1) := Nat.pow_le_pow_right (by norm_num) (by omega)
    have hd2 : s.reconnectDelay * 2 ≤ 30000 :=
      le_trans (le_trans (Nat.mul_le_mul_left _ h2) (le_of_eq (by ring))) hc
    have hmin : min (s.reconnectDelay * 2) 30000 = s.reconnectDelay * 2 := min_eq_left hd2
    have hres := ih
      { s with reconnectAttempts := s.reconnectAttempts + 1,
               reconnectDelay := min (s.reconnectDelay * 2) 30000 }
      (by simpa using hm) (by simpa using ht) (by simp; omega)
      (by simp only [hmin]
          calc s.reconnectDelay * 2 * 2 ^ n = s.reconnectDelay * 2 ^ (n + 1) := by ring
          _ ≤ 30000 := hc)
    rw [hres]
    simp only [hmin]
    congr 1
    ring

/-- C5: after any successful connection (the onopen handler) the attempt
counter is 0 and the delay is the base 1000 ms; in a run of consecutive
non-normal closures, the wait before retry n (0-indexed) is
min(1000 * 2 ^ n, 30000) for every retry the budget allows, hence each wait
strictly exceeds the previous one, and no retry at all happens from index
maxReconnectAttempts = 5 on. -/
theorem backoff_spec (s : WSState) (hm : s.meetingId.isSome = true)
    (ht : s.token.isSome = true) :
    (∀ n, n < maxReconnectAttempts →
      retryWait n (handleOpen s) = some (min (1000 * 2 ^ n) 30000)) ∧
    (∀ n, 1 ≤ n → n < maxReconnectAttempts →
      ∃ wPrev wCur, retryWait (n - 1) (handleOpen s) = some wPrev ∧
        retryWait n (handleOpen s) = some wCur ∧ wPrev < wCur) ∧
    (∀ n, maxReconnectAttempts ≤ n → retryWait n (handleOpen s) = none) ∧
    (handleOpen s).reconnectAttempts = 0 ∧ (handleOpen s).reconnectDelay = 1000 := by
  have hm' : (handleOpen s).meetingId.isSome = true := by simpa [handleOpen] using hm
  have ht' : (handleOpen s).token.isSome = true := by simpa [handleOpen] using ht
  have hcap : ∀ n, n < maxReconnectAttempts → (1000 : Nat) * 2 ^ n ≤ 30000 := by
    intro n hn
    have hxp : (2 : Nat) ^ n ≤ 2 ^ 4 :=
      Nat.pow_le_pow_right (by norm_num) (by simp [maxReconnectAttempts] at hn; omega)
    calc (1000 : Nat) * 2 ^ n ≤ 1000 * 2 ^ 4 := Nat.mul_le_mul_left _ hxp
    _ ≤ 30000 := by norm_num
  have hform : ∀ n, n < maxReconnectAttempts →
      retryWait n (handleOpen s) = some (1000 * 2 ^ n) := by
    intro n hn
    have hres := retryWait_closed_form n (handleOpen s) hm' ht'
      (by simp [handleOpen]; omega) (by simp [handleOpen]; exact hcap n hn)
    simpa [handleOpen] using hres
  refine ⟨?_, ?_, ?_, by simp [handleOpen], by simp [handleOpen]⟩
  · intro n hn
    rw [hform n hn, min_eq_left (hcap n hn)]
  · intro n h1 hn
    refine ⟨1000 * 2 ^ (n - 1), 1000 * 2 ^ n,
      hform (n - 1) (by omega), hform n hn, ?_⟩
    obtain ⟨m, rfl⟩ : ∃ m, n = m + 1 := ⟨n - 1, by omega⟩
    have hpos : 0 < 1000 * 2 ^ m := by positivity
    have heq : 1000 * 2 ^ (m + 1) = 1000 * 2 ^ m * 2 := by ring
    simp only [Nat.add_sub_cancel, heq]
    omega
  · intro n hn
    exact retryWait_stops n (handleOpen s) (by simp [handleOpen]; omega)

theorem backoff_spec_witness :
    retryWait 0 wsConnected0 = some (min (1000 * 2 ^ 0) 30000) ∧
    retryWait 5 wsConnected0 = none ∧
    wsConnected0.reconnectAttempts = 0 ∧ wsConnected0.reconnectDelay = 1000 :=
  ⟨(backoff_spec (connectStart "m0" "t0" wsInitial) (by decide) (by decide)).1 0 (by decide),
   (backoff_spec (connectStart "m0" "t0" wsInitial) (by decide) (by decide)).2.2.1 5
     (by decide),
   (backoff_spec (connectStart "m0" "t0" wsInitial) (by decide) (by decide)).2.2.2.1,
   (backoff_spec (connectStart "m0" "t0" wsInitial) (by decide) (by decide)).2.2.2.2⟩

/-- C8: when the connection of a registered participant transitions to FAILED
or CLOSED, the handler closes it and removes the entry; a transition to
DISCONNECTED only records the new state and keeps the entry.  Consequently
the handler preserves the invariant that no registry entry is in the FAILED
or CLOSED state. -/
theorem connStateChange_spec (s : WebRTCState) (pid : String) (conn : RTCPeerConn)
    (st : ConnState) (h : mapGet pid s.peerConnections = some conn)
    (hu : countKey pid s.peerConnections ≤ 1) :
    ((st = ConnState.failed ∨ st = ConnState.closed) →
      mapGet pid (handleConnectionStateChange pid st s).peerConnections = none ∧
      conn.objId ∈ (handleConnectionStateChange pid st s).closedConnIds) ∧
    (st = ConnState.disconnected →
      handleConnectionStateChange pid st s =
        { s with peerConnections := mapSet pid { conn with connState := ConnState.disconnected } s.peerConnections }) ∧
    ((∀ p c, (p, c) ∈ s.peerConnections →
        ¬ c.connState = ConnState.failed ∧ ¬ c.connState = ConnState.closed) →
      ∀ p c, (p, c) ∈ (handleConnectionStateChange pid st s).peerConnections →
        ¬ c.connState = ConnState.failed ∧ ¬ c.connState = ConnState.closed) := by
  refine ⟨?_, ?_, ?_⟩
  · intro hst
    have hcond : st = ConnState.closed ∨ st = ConnState.failed := hst.symm
    simp only [handleConnectionStateChange, h, if_pos hcond, removePeerConnection,
      mapGet_mapSet_self, mapDelete_mapSet]
    exact ⟨mapGet_mapDelete_of_count_le_one hu, by simp⟩
  · intro hst
    subst hst
    simp only [handleConnectionStateChange, h]
    rw [if_neg (by simp)]
  · intro hP p c hmem
    by_cases hcond : st = ConnState.closed ∨ st = ConnState.failed
    · simp only [handleConnectionStateChange, h, if_pos hcond, removePeerConnection,
        mapGet_mapSet_self, mapDelete_mapSet] at hmem
      exact hP p c (mem_mapDelete hmem)
    · simp only [handleConnectionStateChange, h, if_neg hcond] at hmem
      rcases mem_mapSet hmem with heq | hmem'
      · have hc : c = { conn with connState := st } := (Prod.mk.injEq _ _ _ _).mp heq |>.2
        subst hc
        push_neg at hcond
        exact ⟨by simpa using hcond.2, by simpa using hcond.1⟩
      · exact hP p c hmem'

theorem connStateChange_spec_witness :
    mapGet "p" (handleConnectionStateChange "p" ConnState.failed c1Setup).peerConnections
      = none ∧
    0 ∈ (handleConnectionStateChange "p" ConnState.failed c1Setup).closedConnIds :=
  (connStateChange_spec c1Setup "p" ((createPeerConnection "p" rtcInitial).1)
    ConnState.failed (by decide) (by decide)).1 (Or.inl rfl)

/-! ### Screen-share round trip (towards C4) -/

/-- C4 counterexample: starting from camera track 0 outbound on the
connection of p, toggling screen share on (track 2) and off replaces the
outbound video track by the freshly acquired camera track 3, not the original
track 0, which is stopped — while the connection object, the close log and
the signal log are untouched. -/
theorem screenShare_off_not_original_track :
    outboundVideo "p" c4Start = some 0 ∧
    outboundVideo "p" c4Restored = some 3 ∧
    ¬ outboundVideo "p" c4Restored = outboundVideo "p" c4Start ∧
    (getTrack c4Restored.tracks 0).map MediaTrack.stopped = some true ∧
    (connOf "p" c4Restored).map RTCPeerConn.objId = some 0 ∧
    c4Restored.closedConnIds = [] ∧
    c4Restored.sent = [] := by
  decide

theorem toggleScreenShare_off_eq (s : WebRTCState) :
    toggleScreenShare false s = stopScreenShare s := rfl

theorem toggleOn_localStream (s : WebRTCState) :
    (toggleScreenShare true s).localStream = s.localStream := rfl

theorem toggleOn_tracks (s : WebRTCState) :
    (toggleScreenShare true s).tracks
      = s.tracks ++ [⟨s.nextTrackId, TrackKind.video, true, false⟩] := rfl

theorem toggleOn_nextTrackId (s : WebRTCState) :
    (toggleScreenShare true s).nextTrackId = s.nextTrackId + 1 := rfl

theorem toggleOn_sent (s : WebRTCState) :
    (toggleScreenShare true s).sent = s.sent := rfl

theorem toggleOn_closed (s : WebRTCState) :
    (toggleScreenShare true s).closedConnIds = s.closedConnIds := rfl

theorem toggleOn_pcs (s : WebRTCState) :
    (toggleScreenShare true s).peerConnections
      = s.peerConnections.map fun (pc : String × RTCPeerConn) =>
        (pc.1, { pc.2 with senders := replaceFirstVideo (s.tracks ++ [⟨s.nextTrackId, TrackKind.video, true, false⟩]) s.nextTrackId pc.2.senders }) := rfl

theorem stopScreenShare_eq (s : WebRTCState) (tids : List Nat) (t0 : Nat)
    (hstream : s.localStream = some tids)
    (hfv : firstVideo (s.tracks ++ [⟨s.nextTrackId, TrackKind.video, true, false⟩]) tids
      = some t0) :
    stopScreenShare s =
      { s with nextTrackId := s.nextTrackId + 1,
               tracks := stopTrack t0 (s.tracks ++ [⟨s.nextTrackId, TrackKind.video, true, false⟩]),
               peerConnections := s.peerConnections.map fun (pc : String × RTCPeerConn) =>
                 (pc.1, { pc.2 with senders := replaceFirstVideo (s.tracks ++ [⟨s.nextTrackId, TrackKind.video, true, false⟩]) s.nextTrackId pc.2.senders }),
               localStream := some (removeId t0 tids ++ [s.nextTrackId]) } := by
  simp only [stopScreenShare, allocTrack, hstream, hfv]

/-- The four projections of stopScreenShare the round-trip argument needs,
once the local stream and its current video track are known. -/
theorem stopScreenShare_proj (s : WebRTCState) (tids : List Nat) (t0 : Nat)
    (hstream : s.localStream = some tids)
    (hfv : firstVideo (s.tracks ++ [⟨s.nextTrackId, TrackKind.video, true, false⟩]) tids
      = some t0) :
    (stopScreenShare s).tracks
      = stopTrack t0 (s.tracks ++ [⟨s.nextTrackId, TrackKind.video, true, false⟩]) ∧
    (stopScreenShare s).peerConnections
      = s.peerConnections.map (fun (pc : String × RTCPeerConn) =>
          (pc.1, { pc.2 with senders := replaceFirstVideo (s.tracks ++ [⟨s.nextTrackId, TrackKind.video, true, false⟩]) s.nextTrackId pc.2.senders })) ∧
    (stopScreenShare s).sent = s.sent ∧
    (stopScreenShare s).closedConnIds = s.closedConnIds := by
  rw [stopScreenShare_eq s tids t0 hstream hfv]
  exact ⟨rfl, rfl, rfl, rfl⟩

/-- C4 (amended): for any connection whose outbound video track t0 is also
the local stream's current video track, toggling screen share on and then off
leaves the connection object in place (same entry, no close, no signal) but
its outbound video track afterwards is the freshly acquired camera track,
which is distinct from t0; the original camera track t0 is stopped. -/
theorem screenShare_roundtrip_spec
    (s : WebRTCState) (pid : String) (conn : RTCPeerConn)
    (pre post tids : List Nat) (t0 : Nat)
    (hconn : mapGet pid s.peerConnections = some conn)
    (hsplit : conn.senders = pre ++ t0 :: post)
    (hpre : ∀ x ∈ pre, isVideo s.tracks x = false)
    (ht0 : isVideo s.tracks t0 = true)
    (hsb : ∀ x ∈ conn.senders, x < s.nextTrackId)
    (hwf : ∀ t ∈ s.tracks, t.id < s.nextTrackId)
    (hstream : s.localStream = some tids)
    (hfv : firstVideo s.tracks tids = some t0)
    (htb : ∀ x ∈ tids, x < s.nextTrackId) :
    mapGet pid (toggleScreenShare false (toggleScreenShare true s)).peerConnections
      = some { conn with senders := pre ++ (s.nextTrackId + 1) :: post } ∧
    ¬ s.nextTrackId + 1 = t0 ∧
    (∃ tr, getTrack (toggleScreenShare false (toggleScreenShare true s)).tracks t0
        = some tr ∧ tr.stopped = true) ∧
    (toggleScreenShare false (toggleScreenShare true s)).sent = s.sent ∧
    (toggleScreenShare false (toggleScreenShare true s)).closedConnIds = s.closedConnIds := by
  have ht0mem : t0 ∈ conn.senders := by rw [hsplit]; simp
  have ht0lt : t0 < s.nextTrackId := hsb t0 ht0mem
  have hA : ∀ x, x < s.nextTrackId →
      isVideo (s.tracks ++ [⟨s.nextTrackId, TrackKind.video, true, false⟩]) x
        = isVideo s.tracks x := by
    intro x hx
    exact isVideo_append_of_ne _ _ _ (by simp; omega)
  have hB : ∀ x, x < s.nextTrackId + 1 →
      isVideo ((s.tracks ++ [⟨s.nextTrackId, TrackKind.video, true, false⟩]) ++
          [⟨s.nextTrackId + 1, TrackKind.video, true, false⟩]) x
        = isVideo (s.tracks ++ [⟨s.nextTrackId, TrackKind.video, true, false⟩]) x := by
    intro x hx
    exact isVideo_append_of_ne _ _ _ (by simp; omega)
  rw [toggleScreenShare_off_eq]
  have hstream1 : (toggleScreenShare true s).localStream = some tids := by
    rw [toggleOn_localStream]; exact hstream
  have hfv1 : firstVideo ((toggleScreenShare true s).tracks ++
      [⟨(toggleScreenShare true s).nextTrackId, TrackKind.video, true, false⟩]) tids
      = some t0 := by
    rw [toggleOn_tracks, toggleOn_nextTrackId]
    rw [firstVideo_congr s.tracks _ tids ?_]
    · exact hfv
    · intro x hx
      rw [hB x (by have := htb x hx; omega), hA x (htb x hx)]
  obtain ⟨hS2T, hS2P, hS2S, hS2C⟩ :=
    stopScreenShare_proj (toggleScreenShare true s) tids t0 hstream1 hfv1
  rw [toggleOn_tracks, toggleOn_nextTrackId] at hS2T
  rw [toggleOn_pcs, toggleOn_tracks, toggleOn_nextTrackId] at hS2P
  rw [toggleOn_sent] at hS2S
  rw [toggleOn_closed] at hS2C
  -- facts about the singly and doubly extended track stores
  have hpre1 : ∀ x ∈ pre,
      isVideo (s.tracks ++ [⟨s.nextTrackId, TrackKind.video, true, false⟩]) x = false := by
    intro x hx
    have hxs : x ∈ conn.senders := by rw [hsplit]; simp [hx]
    rw [hA x (hsb x hxs)]
    exact hpre x hx
  have ht01 : isVideo (s.tracks ++ [⟨s.nextTrackId, TrackKind.video, true, false⟩]) t0
      = true := by
    rw [hA t0 ht0lt]
    exact ht0
  have hpre2 : ∀ x ∈ pre,
      isVideo ((s.tracks ++ [⟨s.nextTrackId, TrackKind.video, true, false⟩]) ++
        [⟨s.nextTrackId + 1, TrackKind.video, true, false⟩]) x = false := by
    intro x hx
    have hxs : x ∈ conn.senders := by rw [hsplit]; simp [hx]
    rw [hB x (by have := hsb x hxs; omega)]
    exact hpre1 x hx
  have hvn : isVideo ((s.tracks ++ [⟨s.nextTrackId, TrackKind.video, true, false⟩]) ++
      [⟨s.nextTrackId + 1, TrackKind.video, true, false⟩]) s.nextTrackId = true := by
    have hg1 : getTrack ((s.tracks ++ [⟨s.nextTrackId, TrackKind.video, true, false⟩]) ++
        [⟨s.nextTrackId + 1, TrackKind.video, true, false⟩]) s.nextTrackId
        = getTrack (s.tracks ++ [⟨s.nextTrackId, TrackKind.video, true, false⟩]) s.nextTrackId :=
      getTrack_append_of_ne _ _ _ (by simp)
    have hg2 : getTrack (s.tracks ++ [⟨s.nextTrackId, TrackKind.video, true, false⟩]) s.nextTrackId
        = getTrack [⟨s.nextTrackId, TrackKind.video, true, false⟩] s.nextTrackId :=
      getTrack_append_left_none _ _ _ (by intro t ht; have := hwf t ht; omega)
    unfold isVideo
    rw [hg1, hg2]
    simp [getTrack]
  obtain ⟨tr0, hg0⟩ : ∃ tr0, getTrack s.tracks t0 = some tr0 := by
    cases hg : getTrack s.tracks t0 with
    | none => simp [isVideo, hg] at ht0
    | some tr0 => exact ⟨tr0, rfl⟩
  have hgt2 : getTrack ((s.tracks ++ [⟨s.nextTrackId, TrackKind.video, true, false⟩]) ++
      [⟨s.nextTrackId + 1, TrackKind.video, true, false⟩]) t0 = some tr0 := by
    rw [getTrack_append_of_ne _ _ _ (by simp; omega),
      getTrack_append_of_ne _ _ _ (by simp; omega)]
    exact hg0
  refine ⟨?_, by omega, ?_, hS2S, hS2C⟩
  · rw [hS2P, mapGet_replaceMap, mapGet_replaceMap, hconn]
    simp only [Option.map_some', Option.some.injEq]
    rw [hsplit, replaceFirstVideo_split _ _ _ _ _ hpre1 ht01,
      replaceFirstVideo_split _ _ _ _ _ hpre2 hvn]
  · rw [hS2T]
    exact ⟨{ tr0 with stopped := true }, getTrack_stopTrack_self _ _ _ hgt2, rfl⟩

theorem screenShare_roundtrip_spec_witness :
    mapGet "p" c4Restored.peerConnections = some { (createPeerConnection "p" (getLocalStream true true rtcInitial)).1 with senders := [] ++ (c4Start.nextTrackId + 1) :: [1] } ∧
    ¬ c4Start.nextTrackId + 1 = 0 ∧
    (∃ tr, getTrack c4Restored.tracks 0 = some tr ∧ tr.stopped = true) ∧
    c4Restored.sent = c4Start.sent ∧
    c4Restored.closedConnIds = c4Start.closedConnIds :=
  screenShare_roundtrip_spec c4Start "p"
    ((createPeerConnection "p" (getLocalStream true true rtcInitial)).1)
    [] [1] [0, 1] 0 (by decide) (by decide) (by decide) (by decide) (by decide)
    (by decide) (by decide) (by decide) (by decide)
end VideoApp
